import Mathlib

/-!
Verification of the `limitedlet` mutation-accounting engine.

The definitions below are a shallow embedding of the core class
`LimitedVariable` (src/unnamed/part_001, lines 891-1533: the deep-tracking
implementation variant) together with the structural-interception traps it
installs (`#createObjectProxy`, `#createArrayProxy`).  JavaScript values are
modelled by the inductive type `Val` (with `Val.undef` embedding
`undefined`); callback invocations are modelled as emitted `Event`s (an
event is emitted exactly when the corresponding callback slot is non-null,
mirroring the `if (this.#options.onX)` guards in the source); a `throw` is
modelled as the result `WriteResult.threw`.  `Date.now()` is modelled as an
explicit `now : Nat` argument to every operation that reads the clock.
-/

namespace LimitedLet

/-- JavaScript values, as far as the engine observes them.  The engine never
inspects a payload beyond "is it a container", so this universe is enough
for every claim.  `undef` embeds JavaScript `undefined`. -/
inductive Val where
  | undef : Val
  | nul : Val
  | bool (b : Bool) : Val
  | num (n : Int) : Val
  | str (s : String) : Val
  | arr (xs : List Val) : Val
  | obj (fields : List (String × Val)) : Val

/-- The `mutationType` tag passed to `#handleDeepMutation`:
`'property'`, `'delete'` or `'array-method'`. -/
inductive MutType where
  | property : MutType
  | delete : MutType
  | arrayMethod : MutType
deriving DecidableEq

/-- The `type` field of a history entry:
`'initial' | 'mutation' | 'violation' | 'reset' | 'deep-mutation'`. -/
inductive EntryType where
  | initial : EntryType
  | mutation : EntryType
  | violation : EntryType
  | reset : EntryType
  | deepMutation : EntryType
deriving DecidableEq

/-- One record of the `#history` log (the object literals pushed in
`set value`, `#handleDeepMutation`, the constructor, and `reset`). -/
structure HistoryEntry where
  value : Val
  previousValue : Option Val := none
  timestamp : Nat
  mutation : Nat
  mutationPath : Option String := none
  mutationType : Option MutType := none
  type : EntryType

/-- The resolved `#options` record (defaults merged with the caller's
overrides).  Callback slots are modelled by whether they are non-null. -/
structure Options where
  trackHistory : Bool
  strictMode : Bool
  allowReset : Bool
  autoFreeze : Bool
  trackDeepMutations : Bool
  hasOnMutate : Bool
  hasOnViolation : Bool
  hasOnLastMutation : Bool
  hasOnLimitExceeded : Bool
  errorMessage : Option String

/-- The context payload attached to a `MutationLimitExceeded` error. -/
structure ErrContext where
  maxMutations : Nat
  currentMutations : Nat
  attemptedValue : Option Val := none
  currentValue : Option Val := none
  frozen : Option Bool := none
  mutationPath : Option String := none
  mutationType : Option MutType := none
  history : Option (List HistoryEntry) := none

/-- The `MutationLimitExceeded` error (message plus context). -/
structure MLE where
  message : String
  context : ErrContext

/-- The transient record handed to the `onLimitExceeded` callback. -/
structure ViolationAttempt where
  attemptNumber : Nat
  attemptedValue : Val
  currentValue : Val
  mutationCount : Nat
  violationCount : Nat
  timestamp : Nat
  totalAttempts : Nat
  mutationPath : Option String := none
  mutationType : Option MutType := none

/-- A callback invocation performed by the engine, in invocation order. -/
inductive Event where
  | onMutate (newValue oldValue : Val) (mutationCount remaining : Nat)
      (mutationPath : Option String) (mutationType : Option MutType) : Event
  | onViolation (err : MLE) : Event
  | onLastMutation (value : Val) (mutationPath : Option String)
      (mutationType : Option MutType) (history : Option (List HistoryEntry)) : Event
  | onLimitExceeded (attempt : ViolationAttempt) : Event

/-- Outcome of a write attempt: normal return, or a thrown
`MutationLimitExceeded`. -/
inductive WriteResult where
  | ok : WriteResult
  | threw (err : MLE) : WriteResult

/-- True when the write returned normally (did not throw). -/
def WriteResult.isOk : WriteResult → Bool
  | WriteResult.ok => true
  | WriteResult.threw _ => false

/-- The private state of one `LimitedVariable` instance.  `mutationPath` is
the `#mutationPath` bookkeeping field (assigned on every deep mutation and
on reset; never read by the engine). -/
structure GuardState where
  value : Val
  maxMutations : Nat
  mutationCount : Nat
  violationCount : Nat
  history : List HistoryEntry
  opts : Options
  frozen : Bool
  violated : Bool
  onViolationCalled : Bool
  mutationPath : List String

/-- `path.join('.')`. -/
def pathJoin (path : List String) : String := String.intercalate "." path

/-- Embeds `set value(newValue)` of `LimitedVariable`
(src/unnamed/part_001, lines 989-1115). -/
def setValue (s : GuardState) (newValue : Val) (now : Nat) :
    GuardState × WriteResult × List Event :=
  if s.frozen then
    -- frozen branch (lines 990-1011)
    let s1 : GuardState := { s with violated := true }
    let err : MLE :=
      { message := s1.opts.errorMessage.getD "Variable is frozen. No more mutations allowed.",
        context := { maxMutations := s1.maxMutations, currentMutations := s1.mutationCount,
                     attemptedValue := some newValue, currentValue := some s1.value,
                     frozen := some true } }
    let oneShot : Bool := s1.opts.hasOnViolation && !s1.onViolationCalled
    let s2 : GuardState := if oneShot then { s1 with onViolationCalled := true } else s1
    let evs : List Event := if oneShot then [Event.onViolation err] else []
    if s2.opts.strictMode then (s2, WriteResult.threw err, evs)
    else (s2, WriteResult.ok, evs)
  else if s.maxMutations ≤ s.mutationCount then
    -- limit-exceeded branch (lines 1013-1071)
    let s1 : GuardState := { s with violated := true, violationCount := s.violationCount + 1 }
    let attempt : ViolationAttempt :=
      { attemptNumber := s1.violationCount, attemptedValue := newValue,
        currentValue := s1.value, mutationCount := s1.mutationCount,
        violationCount := s1.violationCount, timestamp := now,
        totalAttempts := s1.mutationCount + s1.violationCount }
    let evs0 : List Event :=
      if s1.opts.hasOnLimitExceeded then [Event.onLimitExceeded attempt] else []
    if s1.opts.strictMode then
      let err : MLE :=
        { message := s1.opts.errorMessage.getD
            ("Mutation limit exceeded. Maximum " ++ toString s1.maxMutations ++
             " mutation(s) allowed, attempted mutation #" ++
             toString (s1.mutationCount + s1.violationCount)),
          context := { maxMutations := s1.maxMutations, currentMutations := s1.mutationCount,
                       attemptedValue := some newValue, currentValue := some s1.value,
                       history := if s1.opts.trackHistory then some s1.history else none } }
      let oneShot : Bool := s1.opts.hasOnViolation && !s1.onViolationCalled
      let s2 : GuardState := if oneShot then { s1 with onViolationCalled := true } else s1
      let evs1 : List Event := if oneShot then [Event.onViolation err] else []
      (s2, WriteResult.threw err, evs0 ++ evs1)
    else
      let oldValue := s1.value
      let s2 : GuardState := { s1 with value := newValue }
      let s3 : GuardState :=
        if s2.opts.trackHistory then
          { s2 with history := s2.history ++
              [{ value := newValue, previousValue := some oldValue, timestamp := now,
                 mutation := s2.mutationCount, type := EntryType.violation }] }
        else s2
      (s3, WriteResult.ok, evs0)
  else
    -- admitted branch (lines 1073-1115).  `#createDeepProxy` wraps container
    -- values in the interception shim; the shim is transparent for the stored
    -- contents, so the guard-visible stored value is `newValue` either way.
    let oldValue := s.value
    let s1 : GuardState := { s with value := newValue, mutationCount := s.mutationCount + 1 }
    let s2 : GuardState :=
      if s1.opts.trackHistory then
        { s1 with history := s1.history ++
            [{ value := newValue, previousValue := some oldValue, timestamp := now,
               mutation := s1.mutationCount, type := EntryType.mutation }] }
      else s1
    let evs0 : List Event :=
      if s2.opts.hasOnMutate then
        [Event.onMutate newValue oldValue s2.mutationCount
          (s2.maxMutations - s2.mutationCount) none none]
      else []
    if s2.mutationCount = s2.maxMutations then
      let evs1 : List Event :=
        if s2.opts.hasOnLastMutation then
          [Event.onLastMutation newValue none none
            (if s2.opts.trackHistory then some s2.history else none)]
        else []
      let s3 : GuardState := if s2.opts.autoFreeze then { s2 with frozen := true } else s2
      (s3, WriteResult.ok, evs0 ++ evs1)
    else (s2, WriteResult.ok, evs0)

/-- Embeds `#handleDeepMutation(path, newValue, oldValue, mutationType)`
(src/unnamed/part_001, lines 1329-1459).  `oldValue` is the previous value at
the path (`Val.undef` when absent); the handler itself never writes into the
container - the calling proxy trap applies the edit after it returns. -/
def handleDeepMutation (s0 : GuardState) (path : List String) (newValue oldValue : Val)
    (mutationType : MutType) (now : Nat) : GuardState × WriteResult × List Event :=
  -- `this.#mutationPath = path` (line 1331)
  let s : GuardState := { s0 with mutationPath := path }
  if s.frozen then
    -- frozen branch (lines 1333-1357)
    let s1 : GuardState := { s with violated := true }
    let err : MLE :=
      { message := s1.opts.errorMessage.getD
          ("Variable is frozen. Deep mutation attempted at path: " ++ pathJoin path),
        context := { maxMutations := s1.maxMutations, currentMutations := s1.mutationCount,
                     attemptedValue := some newValue, currentValue := some oldValue,
                     mutationPath := some (pathJoin path), mutationType := some mutationType,
                     frozen := some true } }
    let oneShot : Bool := s1.opts.hasOnViolation && !s1.onViolationCalled
    let s2 : GuardState := if oneShot then { s1 with onViolationCalled := true } else s1
    let evs : List Event := if oneShot then [Event.onViolation err] else []
    if s2.opts.strictMode then (s2, WriteResult.threw err, evs)
    else (s2, WriteResult.ok, evs)
  else if s.maxMutations ≤ s.mutationCount then
    -- limit-exceeded branch (lines 1360-1416)
    let s1 : GuardState := { s with violated := true, violationCount := s.violationCount + 1 }
    let attempt : ViolationAttempt :=
      { attemptNumber := s1.violationCount, attemptedValue := newValue,
        currentValue := oldValue, mutationCount := s1.mutationCount,
        violationCount := s1.violationCount, timestamp := now,
        totalAttempts := s1.mutationCount + s1.violationCount,
        mutationPath := some (pathJoin path), mutationType := some mutationType }
    let evs0 : List Event :=
      if s1.opts.hasOnLimitExceeded then [Event.onLimitExceeded attempt] else []
    if s1.opts.strictMode then
      let err : MLE :=
        { message := s1.opts.errorMessage.getD
            ("Mutation limit exceeded at path: " ++ pathJoin path ++ ". Maximum " ++
             toString s1.maxMutations ++ " mutation(s) allowed, attempted mutation #" ++
             toString (s1.mutationCount + s1.violationCount)),
          context := { maxMutations := s1.maxMutations, currentMutations := s1.mutationCount,
                       attemptedValue := some newValue, currentValue := some oldValue,
                       mutationPath := some (pathJoin path), mutationType := some mutationType,
                       history := if s1.opts.trackHistory then some s1.history else none } }
      let oneShot : Bool := s1.opts.hasOnViolation && !s1.onViolationCalled
      let s2 : GuardState := if oneShot then { s1 with onViolationCalled := true } else s1
      let evs1 : List Event := if oneShot then [Event.onViolation err] else []
      (s2, WriteResult.threw err, evs0 ++ evs1)
    else
      let s2 : GuardState :=
        if s1.opts.trackHistory then
          { s1 with history := s1.history ++
              [{ value := newValue, previousValue := some oldValue, timestamp := now,
                 mutation := s1.mutationCount, mutationPath := some (pathJoin path),
                 mutationType := some mutationType, type := EntryType.violation }] }
        else s1
      (s2, WriteResult.ok, evs0)
  else
    -- admitted branch (lines 1418-1459)
    let s1 : GuardState := { s with mutationCount := s.mutationCount + 1 }
    let s2 : GuardState :=
      if s1.opts.trackHistory then
        { s1 with history := s1.history ++
            [{ value := newValue, previousValue := some oldValue, timestamp := now,
               mutation := s1.mutationCount, mutationPath := some (pathJoin path),
               mutationType := some mutationType, type := EntryType.deepMutation }] }
      else s1
    let evs0 : List Event :=
      if s2.opts.hasOnMutate then
        [Event.onMutate newValue oldValue s2.mutationCount
          (s2.maxMutations - s2.mutationCount) (some (pathJoin path)) (some mutationType)]
      else []
    if s2.mutationCount = s2.maxMutations then
      let evs1 : List Event :=
        if s2.opts.hasOnLastMutation then
          [Event.onLastMutation newValue (some (pathJoin path)) (some mutationType)
            (if s2.opts.trackHistory then some s2.history else none)]
        else []
      let s3 : GuardState := if s2.opts.autoFreeze then { s2 with frozen := true } else s2
      (s3, WriteResult.ok, evs0 ++ evs1)
    else (s2, WriteResult.ok, evs0)

/-- Embeds the constructor (src/unnamed/part_001, lines 933-971).  `opts` is
the merged `{defaults, ...options}` record; the constructor then applies the
semantic coupling (non-strict mode forces `autoFreeze` off) and, when
history is tracked, pushes the `initial` record.  Wrapping of a container
initial value by `#createDeepProxy` is transparent for the stored contents. -/
def construct (initialValue : Val) (maxMutations : Nat) (opts : Options) (now : Nat) :
    GuardState :=
  let o : Options := if opts.strictMode then opts else { opts with autoFreeze := false }
  { value := initialValue
    maxMutations := maxMutations
    mutationCount := 0
    violationCount := 0
    history :=
      if o.trackHistory then
        [{ value := initialValue, timestamp := now, mutation := 0, type := EntryType.initial }]
      else []
    opts := o
    frozen := false
    violated := false
    onViolationCalled := false
    mutationPath := [] }

/-- The error thrown by the `value` getter after a violation in strict mode
(src/unnamed/part_001, lines 976-985). -/
def readViolationError (s : GuardState) : MLE :=
  { message := "Cannot read value after mutation limit violation in strict mode",
    context := { maxMutations := s.maxMutations, currentMutations := s.mutationCount,
                 frozen := some s.frozen } }

/-- Embeds `get value()` (src/unnamed/part_001, lines 973-987).  The getter
modifies no state; the unchanged state is returned to make that explicit. -/
def getValue (s : GuardState) : GuardState × Except MLE Val :=
  if s.opts.strictMode && s.violated then (s, Except.error (readViolationError s))
  else (s, Except.ok s.value)

/-- Embeds `get remaining()`: `Math.max(0, max - count)` is `Nat` subtraction. -/
def remaining (s : GuardState) : Nat := s.maxMutations - s.mutationCount

/-- Embeds `get history()` (src/unnamed/part_001, lines 1121-1126): throws a
configuration error when tracking is disabled, otherwise returns a copy of
the log (the copy semantics themselves are modelled by `historyRead` below). -/
def historyGet (s : GuardState) : Except String (List HistoryEntry) :=
  if !s.opts.trackHistory then
    Except.error "History tracking is disabled. Enable it in options."
  else Except.ok s.history

/-- Embeds `isDepleted()`. -/
def isDepleted (s : GuardState) : Bool := s.maxMutations ≤ s.mutationCount

/-- Embeds `isFrozen()`. -/
def isFrozen (s : GuardState) : Bool := s.frozen

/-- Embeds `freeze()` (src/unnamed/part_001, lines 1148-1151). -/
def freezeOp (s : GuardState) : GuardState := { s with frozen := true }

/-- Embeds `reset()` (src/unnamed/part_001, lines 1153-1182).  The returned
`Bool` is `false` when the configuration error is thrown (`allowReset`
disabled; state untouched) and `true` on success.  `#deepProxies = new
WeakMap()` resets interception-layer bookkeeping only, which is outside the
accounting state modelled here; `#mutationPath = []` is modelled. -/
def resetOp (s : GuardState) (now : Nat) : GuardState × Bool :=
  if !s.opts.allowReset then (s, false)
  else
    let s1 : GuardState :=
      { s with mutationCount := 0, violationCount := 0, frozen := false,
               violated := false, onViolationCalled := false, mutationPath := [] }
    let s2 : GuardState :=
      if s1.opts.trackHistory then
        { s1 with history := s1.history ++
            [{ value := s1.value, timestamp := now, mutation := 0, type := EntryType.reset }] }
      else s1
    (s2, true)

/-- The plain-structure snapshot produced by `toJSON()`. -/
structure JsonSnapshot where
  value : Val
  maxMutations : Nat
  mutationCount : Nat
  violationCount : Nat
  remaining : Nat
  frozen : Bool
  history : Option (List HistoryEntry)

/-- Embeds `toJSON()` (src/unnamed/part_001, lines 1188-1198). -/
def toJSON (s : GuardState) : JsonSnapshot :=
  { value := s.value, maxMutations := s.maxMutations, mutationCount := s.mutationCount,
    violationCount := s.violationCount, remaining := remaining s, frozen := s.frozen,
    history := if s.opts.trackHistory then some s.history else none }

/-! ## Structural interception traps

One-level models of the proxy traps installed by `#createObjectProxy` and
`#createArrayProxy`.  A proxied record object is an association list of
fields.  In each trap, `#handleDeepMutation` runs first; if it throws (strict
mode), the trap is aborted before the underlying edit (`Reflect.set`,
`Reflect.deleteProperty`, or the delegated array method) is performed;
otherwise the underlying edit is applied. -/

/-- `target[prop]` on a record object: the field value, or `undefined`. -/
def objGet (obj : List (String × Val)) (k : String) : Val :=
  ((obj.find? (fun p => p.1 == k)).map Prod.snd).getD Val.undef

/-- `Reflect.set(target, prop, value)` on a record object. -/
def objSet (obj : List (String × Val)) (k : String) (v : Val) : List (String × Val) :=
  if (obj.find? (fun p => p.1 == k)).isSome then
    obj.map (fun p => if p.1 == k then (k, v) else p)
  else obj ++ [(k, v)]

/-- `Reflect.deleteProperty(target, prop)` on a record object. -/
def objDelete (obj : List (String × Val)) (k : String) : List (String × Val) :=
  obj.filter (fun p => !(p.1 == k))

/-- Embeds the `set` trap of `#createObjectProxy` (src/unnamed/part_001,
lines 1256-1266): route one deep-mutation attempt, then (unless it threw)
apply the write via `Reflect.set`.  The `#createDeepProxy` wrapping of a
container new value is transparent for the stored contents. -/
def proxySetField (s : GuardState) (path : List String) (obj : List (String × Val))
    (k : String) (v : Val) (now : Nat) :
    GuardState × List (String × Val) × WriteResult × List Event :=
  let r := handleDeepMutation s (path ++ [k]) v (objGet obj k) MutType.property now
  match r.2.1 with
  | WriteResult.threw _ => (r.1, obj, r.2.1, r.2.2)
  | WriteResult.ok => (r.1, objSet obj k v, r.2.1, r.2.2)

/-- Embeds the `deleteProperty` trap of `#createObjectProxy`
(src/unnamed/part_001, lines 1268-1272): route one attempt with
`newValue = undefined` and `editKind = 'delete'`, then (unless it threw)
apply the deletion. -/
def proxyDeleteField (s : GuardState) (path : List String) (obj : List (String × Val))
    (k : String) (now : Nat) :
    GuardState × List (String × Val) × WriteResult × List Event :=
  let r := handleDeepMutation s (path ++ [k]) Val.undef (objGet obj k) MutType.delete now
  match r.2.1 with
  | WriteResult.threw _ => (r.1, obj, r.2.1, r.2.2)
  | WriteResult.ok => (r.1, objDelete obj k, r.2.1, r.2.2)

/-- The mutating array methods intercepted by `#createArrayProxy`
(src/unnamed/part_001, line 1281). -/
def mutatingMethods : List String :=
  ["push", "pop", "shift", "unshift", "splice", "sort", "reverse", "fill"]

/-- Embeds the intercepted invocation of a mutating array method in the `get`
trap of `#createArrayProxy` (src/unnamed/part_001, lines 1302-1314): exactly
one call of `#handleDeepMutation` with path component `name + "()"`, the
argument snapshot as attempted value, `oldValue = undefined` and
`editKind = 'array-method'`, before the method itself is delegated. -/
def arrayMethodCall (s : GuardState) (path : List String) (name : String)
    (args : List Val) (now : Nat) : GuardState × WriteResult × List Event :=
  handleDeepMutation s (path ++ [name ++ "()"]) (Val.arr args) Val.undef
    MutType.arrayMethod now

/-- `target[i]` on an array: the element, or `undefined` out of range. -/
def arrGet (arr : List Val) (i : Nat) : Val := (arr.get? i).getD Val.undef

/-- Embeds the `set` trap of `#createArrayProxy` for a numeric index
(src/unnamed/part_001, lines 1284-1295): `arr[i] = v` (index not `length`,
digits only) routes one deep-mutation attempt with the index as path
component and the default `editKind = 'property'`, then (unless it threw)
applies the write via `Reflect.set`; in-range assignment is modelled. -/
def proxySetIndex (s : GuardState) (path : List String) (arr : List Val)
    (i : Nat) (v : Val) (now : Nat) :
    GuardState × List Val × WriteResult × List Event :=
  let r := handleDeepMutation s (path ++ [toString i]) v (arrGet arr i) MutType.property now
  match r.2.1 with
  | WriteResult.threw _ => (r.1, arr, r.2.1, r.2.2)
  | WriteResult.ok => (r.1, arr.set i v, r.2.1, r.2.2)

/-- Embeds an intercepted mutating-method invocation with its delegation
(src/unnamed/part_001, lines 1302-1314): the routed attempt
(`arrayMethodCall`) runs first; if it threw, the closure propagates and the
native method never executes; otherwise `value.apply(target, args)` runs.
The native in-place effect modelled is `push` (append the arguments),
representative of the eight intercepted methods; `#rewrapArrayElements`
afterwards is transparent for the stored contents. -/
def proxyPushCall (s : GuardState) (path : List String) (arr args : List Val)
    (now : Nat) : GuardState × List Val × WriteResult × List Event :=
  let r := arrayMethodCall s path "push" args now
  match r.2.1 with
  | WriteResult.threw _ => (r.1, arr, r.2.1, r.2.2)
  | WriteResult.ok => (r.1, arr ++ args, r.2.1, r.2.2)

/-! ## Write attempts and runs -/

/-- One write attempt against the guard: a top-level reassignment routed to
`set value`, or a deep structural edit routed to `#handleDeepMutation`
(property set, index assignment, deletion, or mutating array-method call,
distinguished by the `MutType`). -/
inductive Att where
  | shallow (newValue : Val) (now : Nat) : Att
  | deep (path : List String) (newValue oldValue : Val)
      (mutationType : MutType) (now : Nat) : Att

/-- One step of the shared admission chokepoint. -/
def stepA (s : GuardState) (a : Att) : GuardState × WriteResult × List Event :=
  match a with
  | Att.shallow nv now => setValue s nv now
  | Att.deep p nv ov ty now => handleDeepMutation s p nv ov ty now

/-- State after a sequence of write attempts. -/
def runState (s : GuardState) : List Att → GuardState
  | [] => s
  | a :: rest => runState (stepA s a).1 rest

/-- Per-attempt results of a sequence of write attempts. -/
def runResults (s : GuardState) : List Att → List WriteResult
  | [] => []
  | a :: rest => (stepA s a).2.1 :: runResults (stepA s a).1 rest

/-- Concatenated callback invocations of a sequence of write attempts. -/
def runEvents (s : GuardState) : List Att → List Event
  | [] => []
  | a :: rest => (stepA s a).2.2 ++ runEvents (stepA s a).1 rest

/-- The admission predicate: a write is admitted (counted) exactly when the
guard is not frozen and the limit is not yet reached. -/
def admits (s : GuardState) : Bool :=
  !s.frozen && decide (s.mutationCount < s.maxMutations)

/-- Recognizes `onViolation` events. -/
def isOnViolationEv : Event → Bool
  | Event.onViolation _ => true
  | _ => false

/-- Recognizes `onLastMutation` events. -/
def isOnLastEv : Event → Bool
  | Event.onLastMutation _ _ _ _ => true
  | _ => false

/-- Recognizes `onLimitExceeded` events. -/
def isOnLimitEv : Event → Bool
  | Event.onLimitExceeded _ => true
  | _ => false

/-- The option defaults of the constructor (src/unnamed/part_001, lines
935-947): all callback slots null, no error-message override. -/
def optsDefault : Options :=
  { trackHistory := true, strictMode := true, allowReset := false, autoFreeze := true,
    trackDeepMutations := true, hasOnMutate := false, hasOnViolation := false,
    hasOnLastMutation := false, hasOnLimitExceeded := false, errorMessage := none }

/-- True when a read returned a value rather than throwing. -/
def exceptOk : Except MLE Val → Bool
  | Except.ok _ => true
  | Except.error _ => false

/-- How many times the one-shot `onViolation` callback may still fire. -/
def ovAllowance (s : GuardState) : Nat := if s.onViolationCalled = true then 0 else 1

/-- The admission-relevant observables of a state (counts and flags). -/
def obsOf (s : GuardState) : Nat × Nat × Bool × Bool :=
  (s.mutationCount, s.violationCount, s.frozen, s.violated)

/-- Per-attempt admission outcomes of a run: whether each write returned
normally, together with the observables after it. -/
def admissionTrace (s : GuardState) : List Att → List (Bool × Nat × Nat × Bool × Bool)
  | [] => []
  | a :: rest => ((stepA s a).2.1.isOk, obsOf (stepA s a).1) :: admissionTrace (stepA s a).1 rest

/-- Agreement on every field that can influence admission decisions
(everything except the stored value, the history log, and the
`#mutationPath` bookkeeping). -/
def coreEq (s t : GuardState) : Prop :=
  s.maxMutations = t.maxMutations ∧ s.mutationCount = t.mutationCount ∧
  s.violationCount = t.violationCount ∧ s.frozen = t.frozen ∧ s.violated = t.violated ∧
  s.onViolationCalled = t.onViolationCalled ∧ s.opts = t.opts

/-! ## Reference-level model of the history getter

The history accessor returns `[...this.#history]` (src/unnamed/part_001,
line 1125): JavaScript arrays are heap references, and the spread copies the
log into a freshly allocated array.  The heap is modelled as a list of array
cells indexed by `Nat` references; the guard's `#history` field holds one
such reference. -/

/-- Read an array cell. -/
def histGetCell (store : List (List HistoryEntry)) (r : Nat) : List HistoryEntry :=
  (store.get? r).getD []

/-- Overwrite an array cell in place (a caller mutating an array it holds). -/
def histSetCell (store : List (List HistoryEntry)) (r : Nat) (v : List HistoryEntry) :
    List (List HistoryEntry) :=
  store.set r v

/-- The heap-facing fragment of a guard: the store and the reference kept in
the private `#history` field. -/
structure HeapModel where
  store : List (List HistoryEntry)
  guardHist : Nat

/-- Embeds `get history()` with tracking enabled: allocate a fresh cell
holding a copy of the internal log and return its reference. -/
def historyRead (m : HeapModel) : HeapModel × Nat :=
  ({ m with store := m.store ++ [histGetCell m.store m.guardHist] }, m.store.length)

/-- The history part of a `toJSON()` snapshot in the heap model: `toJSON`
exposes the internal log reference directly. -/
def toJSONHistory (m : HeapModel) : List HistoryEntry :=
  histGetCell m.store m.guardHist

/-- A sample `initial` history record, used by concrete instances. -/
def entry0 : HistoryEntry :=
  { value := Val.num 0, timestamp := 0, mutation := 0, type := EntryType.initial }

/-- A sample one-cell heap: the guard's log holds one `initial` record. -/
def heap0 : HeapModel := { store := [[entry0]], guardHist := 0 }

/-! ## Step lemmas -/

theorem stepA_opts (s : GuardState) (a : Att) : (stepA s a).1.opts = s.opts := by
  cases a <;> simp only [stepA, setValue, handleDeepMutation] <;> split_ifs <;> rfl

theorem stepA_max (s : GuardState) (a : Att) :
    (stepA s a).1.maxMutations = s.maxMutations := by
  cases a <;> simp only [stepA, setValue, handleDeepMutation] <;> split_ifs <;> rfl

theorem stepA_count (s : GuardState) (a : Att) :
    (stepA s a).1.mutationCount = s.mutationCount + (if admits s = true then 1 else 0) := by
  cases a <;> simp only [stepA, setValue, handleDeepMutation] <;> split_ifs <;>
    simp_all [admits] <;> omega

theorem stepA_vcount (s : GuardState) (a : Att) :
    (stepA s a).1.violationCount =
      s.violationCount +
        (if s.frozen = false ∧ s.maxMutations ≤ s.mutationCount then 1 else 0) := by
  cases a <;> simp only [stepA, setValue, handleDeepMutation] <;> split_ifs <;>
    simp_all <;> omega

theorem stepA_isOk (s : GuardState) (a : Att) :
    (stepA s a).2.1.isOk = (!s.opts.strictMode || admits s) := by
  cases a <;> simp only [stepA, setValue, handleDeepMutation] <;> split_ifs <;>
    simp_all [admits, WriteResult.isOk] <;> omega

theorem stepA_violated (s : GuardState) (a : Att) :
    (stepA s a).1.violated = (s.violated || !admits s) := by
  cases a <;> simp only [stepA, setValue, handleDeepMutation] <;> split_ifs <;>
    simp_all [admits] <;> omega

theorem stepA_frozen (s : GuardState) (a : Att) :
    (stepA s a).1.frozen =
      (s.frozen ||
        (admits s && s.opts.autoFreeze && decide (s.mutationCount + 1 = s.maxMutations))) := by
  cases a <;> simp only [stepA, setValue, handleDeepMutation] <;> split_ifs <;>
    simp_all [admits] <;> omega

theorem stepA_ovFlag (s : GuardState) (a : Att) :
    (stepA s a).1.onViolationCalled =
      (s.onViolationCalled ||
        (s.opts.hasOnViolation &&
          (s.frozen || (decide (s.maxMutations ≤ s.mutationCount) && s.opts.strictMode)))) := by
  cases a <;> simp only [stepA, setValue, handleDeepMutation] <;> split_ifs <;>
    simp_all <;> omega

theorem stepA_ovEv (s : GuardState) (a : Att) :
    List.countP isOnViolationEv (stepA s a).2.2 =
      (if s.opts.hasOnViolation = true ∧ s.onViolationCalled = false ∧
          (s.frozen = true ∨ (s.maxMutations ≤ s.mutationCount ∧ s.opts.strictMode = true))
        then 1 else 0) := by
  cases a <;> simp only [stepA, setValue, handleDeepMutation] <;> split_ifs <;>
    simp_all [isOnViolationEv, List.countP_cons, List.countP_append] <;> omega

theorem stepA_lastEv (s : GuardState) (a : Att) :
    List.countP isOnLastEv (stepA s a).2.2 =
      (if s.opts.hasOnLastMutation = true ∧ admits s = true ∧
          s.mutationCount + 1 = s.maxMutations
        then 1 else 0) := by
  cases a <;> simp only [stepA, setValue, handleDeepMutation] <;> split_ifs <;>
    simp_all [admits, isOnLastEv, List.countP_cons, List.countP_append] <;> omega

theorem stepA_limitEv (s : GuardState) (a : Att) :
    List.countP isOnLimitEv (stepA s a).2.2 =
      (if s.opts.hasOnLimitExceeded = true ∧ s.frozen = false ∧
          s.maxMutations ≤ s.mutationCount
        then 1 else 0) := by
  cases a <;> simp only [stepA, setValue, handleDeepMutation] <;> split_ifs <;>
    simp_all [isOnLimitEv, List.countP_cons, List.countP_append] <;> omega

/-! ## Run lemmas -/

theorem runState_nil (s : GuardState) : runState s [] = s := rfl

theorem runState_cons (s : GuardState) (a : Att) (rest : List Att) :
    runState s (a :: rest) = runState (stepA s a).1 rest := rfl

theorem runState_opts (s : GuardState) (atts : List Att) :
    (runState s atts).opts = s.opts := by
  induction atts generalizing s with
  | nil => rfl
  | cons a rest ih => rw [runState_cons, ih, stepA_opts]

theorem runState_max (s : GuardState) (atts : List Att) :
    (runState s atts).maxMutations = s.maxMutations := by
  induction atts generalizing s with
  | nil => rfl
  | cons a rest ih => rw [runState_cons, ih, stepA_max]

theorem runCount_mono (s : GuardState) (atts : List Att) :
    s.mutationCount ≤ (runState s atts).mutationCount := by
  induction atts generalizing s with
  | nil => exact Nat.le_refl _
  | cons a rest ih =>
    rw [runState_cons]
    refine Nat.le_trans ?_ (ih (stepA s a).1)
    rw [stepA_count]
    exact Nat.le_add_right _ _

theorem runCount_le_max (s : GuardState) (atts : List Att)
    (h : s.mutationCount ≤ s.maxMutations) :
    (runState s atts).mutationCount ≤ s.maxMutations := by
  induction atts generalizing s with
  | nil => exact h
  | cons a rest ih =>
    rw [runState_cons]
    have hm := stepA_max s a
    have hc := stepA_count s a
    have : (stepA s a).1.mutationCount ≤ (stepA s a).1.maxMutations := by
      rw [hc, hm]
      by_cases ha : admits s = true
      · simp only [ha, if_true]
        have : s.mutationCount < s.maxMutations := by
          simp only [admits, Bool.and_eq_true, decide_eq_true_eq] at ha
          exact ha.2
        omega
      · simp only [ha, if_false]
        exact h
    have h2 : (stepA s a).1.mutationCount ≤ (stepA s a).1.maxMutations := this
    have h3 := ih (stepA s a).1 h2
    rw [hm] at h3
    exact h3

theorem ovStep (s : GuardState) (a : Att) :
    List.countP isOnViolationEv (stepA s a).2.2 + ovAllowance (stepA s a).1 ≤
      ovAllowance s := by
  simp only [stepA_ovEv, stepA_ovFlag, ovAllowance]
  split_ifs <;> simp_all <;> omega

theorem ovRun (s : GuardState) (atts : List Att) :
    List.countP isOnViolationEv (runEvents s atts) + ovAllowance (runState s atts) ≤
      ovAllowance s := by
  induction atts generalizing s with
  | nil => simp [runEvents, runState]
  | cons a rest ih =>
    have h1 := ovStep s a
    have h2 := ih (stepA s a).1
    simp only [runEvents, runState, List.countP_append]
    omega

theorem lastRun (s : GuardState) (atts : List Att)
    (h : s.mutationCount ≤ s.maxMutations) :
    List.countP isOnLastEv (runEvents s atts) =
      (if s.opts.hasOnLastMutation = true ∧ s.mutationCount < s.maxMutations ∧
          (runState s atts).mutationCount = s.maxMutations
        then 1 else 0) := by
  induction atts generalizing s with
  | nil =>
    simp only [runEvents, runState, List.countP_nil]
    split_ifs with hc
    · omega
    · rfl
  | cons a rest ih =>
    have hstep := stepA_lastEv s a
    have hcnt := stepA_count s a
    have hmax := stepA_max s a
    have hopts := stepA_opts s a
    have hle : (stepA s a).1.mutationCount ≤ (stepA s a).1.maxMutations := by
      rw [hcnt, hmax]
      by_cases ha : admits s = true
      · have : s.mutationCount < s.maxMutations := by
          simp only [admits, Bool.and_eq_true, decide_eq_true_eq] at ha
          exact ha.2
        simp only [ha, if_true]
        omega
      · simp only [ha, if_false]; exact h
    have hrec := ih (stepA s a).1 hle
    simp only [runEvents, runState, List.countP_append, hstep]
    rw [hrec, hopts, hmax, hcnt]
    have hmono := runCount_mono (stepA s a).1 rest
    have hlemax := runCount_le_max (stepA s a).1 rest hle
    rw [hcnt] at hmono
    rw [hmax] at hlemax
    by_cases ha : admits s = true
    · have hlt : s.mutationCount < s.maxMutations := by
        simp only [admits, Bool.and_eq_true, decide_eq_true_eq] at ha
        exact ha.2
      simp only [ha, if_true] at hmono hlemax ⊢
      by_cases hreach : s.mutationCount + 1 = s.maxMutations
      · split_ifs <;> simp_all <;> omega
      · split_ifs <;> simp_all <;> omega
    · simp only [ha, if_false] at hmono hlemax ⊢
      have : admits s = false := by simpa using ha
      split_ifs <;> simp_all <;> omega

theorem runState_append (s : GuardState) (l1 l2 : List Att) :
    runState s (l1 ++ l2) = runState (runState s l1) l2 := by
  induction l1 generalizing s with
  | nil => rfl
  | cons a rest ih => simp only [List.cons_append, runState_cons, ih]

theorem runResults_append (s : GuardState) (l1 l2 : List Att) :
    runResults s (l1 ++ l2) = runResults s l1 ++ runResults (runState s l1) l2 := by
  induction l1 generalizing s with
  | nil => rfl
  | cons a rest ih => simp only [List.cons_append, runResults, runState_cons, List.append_eq, ih]

theorem take_succ_getD (l : List Att) (k : Nat) (h : k < l.length) :
    l.take (k + 1) = l.take k ++ [l.getD k (Att.shallow Val.undef 0)] := by
  rw [List.take_succ, List.getElem?_eq_getElem h]
  simp [List.getD_eq_getElem?_getD, List.getElem?_eq_getElem h]

/-- The semantic coupling applied by the constructor: non-strict mode forces
`autoFreeze` off. -/
theorem constructCoupling (v : Val) (n : Nat) (o : Options) (t : Nat)
    (h : (construct v n o t).opts.strictMode = false) :
    (construct v n o t).opts.autoFreeze = false := by
  by_cases ho : o.strictMode = true
  · simp [construct, ho] at h
  · simp only [Bool.not_eq_true] at ho
    simp [construct, ho]

/-- Invariant of a fresh guard over the first `n` attempts: every attempt in
the prefix is admitted, counts advance one per attempt, no violation state
accrues, and the guard can only be frozen at the very end of the prefix by
`autoFreeze`. -/
theorem freshPrefixInv (v : Val) (n : Nat) (o : Options) (t : Nat) (atts : List Att)
    (hlen : n ≤ atts.length) (k : Nat) : k ≤ n →
    (runState (construct v n o t) (atts.take k)).mutationCount = k ∧
    (runState (construct v n o t) (atts.take k)).violationCount = 0 ∧
    (runState (construct v n o t) (atts.take k)).violated = false ∧
    (runState (construct v n o t) (atts.take k)).onViolationCalled = false ∧
    (runState (construct v n o t) (atts.take k)).maxMutations = n ∧
    (runState (construct v n o t) (atts.take k)).opts = (construct v n o t).opts ∧
    (k < n → (runState (construct v n o t) (atts.take k)).frozen = false) ∧
    ((runState (construct v n o t) (atts.take k)).frozen = true →
       (construct v n o t).opts.autoFreeze = true ∧ k = n) ∧
    (runResults (construct v n o t) (atts.take k)).all WriteResult.isOk = true := by
  induction k with
  | zero =>
    intro _
    rw [List.take_zero]
    refine ⟨rfl, rfl, rfl, rfl, rfl, rfl, fun _ => rfl, ?_, rfl⟩
    intro hfr
    simp [runState, construct] at hfr
  | succ k ih =>
    intro hk
    have hk1 : k ≤ n := Nat.le_of_succ_le hk
    have hklt : k < n := hk
    obtain ⟨hc, hv, hviol, hflag, hmax, hopts, hfr, _, hres⟩ := ih hk1
    have hkl : k < atts.length := lt_of_lt_of_le hklt hlen
    have htk := take_succ_getD atts k hkl
    have hfrk : (runState (construct v n o t) (atts.take k)).frozen = false := hfr hklt
    have hadm : admits (runState (construct v n o t) (atts.take k)) = true := by
      simp [admits, hfrk, hc, hmax, hklt]
    have e1 : runState (construct v n o t) (atts.take (k + 1)) =
        (stepA (runState (construct v n o t) (atts.take k))
          (atts.getD k (Att.shallow Val.undef 0))).1 := by
      rw [htk, runState_append]
      rfl
    have e2 : runResults (construct v n o t) (atts.take (k + 1)) =
        runResults (construct v n o t) (atts.take k) ++
          [(stepA (runState (construct v n o t) (atts.take k))
            (atts.getD k (Att.shallow Val.undef 0))).2.1] := by
      rw [htk, runResults_append]
      rfl
    rw [e1, e2]
    set sk := runState (construct v n o t) (atts.take k)
    set a := atts.getD k (Att.shallow Val.undef 0)
    have hnle : ¬ (n ≤ k) := Nat.not_le.mpr hklt
    refine ⟨?_, ?_, ?_, ?_, ?_, ?_, ?_, ?_, ?_⟩
    · rw [stepA_count, hc, hadm]
      simp
    · rw [stepA_vcount, hv, hfrk, hmax, hc]
      simp [hnle]
    · rw [stepA_violated, hviol, hadm]
      rfl
    · rw [stepA_ovFlag, hflag, hfrk, hmax, hc]
      simp [hnle]
    · rw [stepA_max, hmax]
    · rw [stepA_opts, hopts]
    · intro hlt
      rw [stepA_frozen, hfrk, hc, hmax]
      simp [Nat.ne_of_lt hlt]
    · intro hfz
      rw [stepA_frozen, hfrk, hc, hmax, hopts] at hfz
      simp only [Bool.false_or, Bool.and_eq_true, decide_eq_true_eq] at hfz
      exact ⟨hfz.1.2, hfz.2⟩
    · rw [List.all_append, hres]
      simp [stepA_isOk, hadm]

/-! ## Claim theorems -/

/-- C3 counterexample: with `maxMutations = 0` in strict mode (the defaults),
the very first write is rejected with a throw, yet `violationCount` moves
from 0 to 1 - the source increments `#violationCount` in the limit-exceeded
branch before the strict-mode check, so a strict-mode rejection does change
`violationCount`, contradicting the claim that it is unchanged. -/
theorem C3_counterexample :
    (construct (Val.num 0) 0 optsDefault 0).opts.strictMode = true ∧
    (construct (Val.num 0) 0 optsDefault 0).violationCount = 0 ∧
    (setValue (construct (Val.num 0) 0 optsDefault 0) (Val.num 1) 1).2.1.isOk = false ∧
    (setValue (construct (Val.num 0) 0 optsDefault 0) (Val.num 1) 1).1.violationCount = 1 := by
  refine ⟨rfl, rfl, rfl, rfl⟩

/-- C3 (amended): `violationCount` is a non-negative integer, and a write
attempt increments it exactly when the attempt hits the limit-exceeded
branch (not frozen, limit reached) - in both strict and non-strict mode;
admitted writes and frozen rejections leave it unchanged. -/
theorem C3_amended_violationCount (s : GuardState) (a : Att) :
    0 ≤ (stepA s a).1.violationCount ∧
    (stepA s a).1.violationCount =
      s.violationCount +
        (if s.frozen = false ∧ s.maxMutations ≤ s.mutationCount then 1 else 0) :=
  ⟨Nat.zero_le _, stepA_vcount s a⟩

/-- C4: each invocation of a mutating array method routes exactly one
mutation attempt through `#handleDeepMutation` (the Guard's single admission
chokepoint): the call is literally a single deep-mutation attempt on the
`name()` path, its effect on `mutationCount` is that of one admitted
attempt, and the accounting is independent of the argument list (hence of
how many elements the operation touches). -/
theorem C4_array_method_one_attempt (s : GuardState) (path : List String)
    (name : String) (args args2 : List Val) (now : Nat)
    (h : name ∈ mutatingMethods) :
    arrayMethodCall s path name args now =
      handleDeepMutation s (path ++ [name ++ "()"]) (Val.arr args) Val.undef
        MutType.arrayMethod now
  ∧ (arrayMethodCall s path name args now).1.mutationCount =
      s.mutationCount + (if admits s = true then 1 else 0)
  ∧ (arrayMethodCall s path name args now).1.mutationCount =
      (arrayMethodCall s path name args2 now).1.mutationCount := by
  have h1 := stepA_count s (Att.deep (path ++ [name ++ "()"]) (Val.arr args) Val.undef
    MutType.arrayMethod now)
  have h2 := stepA_count s (Att.deep (path ++ [name ++ "()"]) (Val.arr args2) Val.undef
    MutType.arrayMethod now)
  exact ⟨rfl, h1, by rw [show (arrayMethodCall s path name args now).1.mutationCount =
    s.mutationCount + (if admits s = true then 1 else 0) from h1,
    show (arrayMethodCall s path name args2 now).1.mutationCount =
    s.mutationCount + (if admits s = true then 1 else 0) from h2]⟩

/-- Witness for C4: the spec scenario - a guard over `['a']` with limit 1;
one `push` call is counted as one mutation (count becomes 1) regardless of
arguments, and a second `push` is rejected (throws, strict default). -/
theorem C4_witness :
    ("push" ∈ mutatingMethods) ∧
    (arrayMethodCall (construct (Val.arr [Val.str "a"]) 1 optsDefault 0) [] "push"
        [Val.str "b"] 1 =
      handleDeepMutation (construct (Val.arr [Val.str "a"]) 1 optsDefault 0)
        ([] ++ ["push" ++ "()"]) (Val.arr [Val.str "b"]) Val.undef MutType.arrayMethod 1
  ∧ (arrayMethodCall (construct (Val.arr [Val.str "a"]) 1 optsDefault 0) [] "push"
        [Val.str "b"] 1).1.mutationCount =
      (construct (Val.arr [Val.str "a"]) 1 optsDefault 0).mutationCount +
        (if admits (construct (Val.arr [Val.str "a"]) 1 optsDefault 0) = true then 1 else 0)
  ∧ (arrayMethodCall (construct (Val.arr [Val.str "a"]) 1 optsDefault 0) [] "push"
        [Val.str "b"] 1).1.mutationCount =
      (arrayMethodCall (construct (Val.arr [Val.str "a"]) 1 optsDefault 0) [] "push"
        [Val.str "b", Val.str "c"] 1).1.mutationCount) :=
  ⟨by decide,
   C4_array_method_one_attempt (construct (Val.arr [Val.str "a"]) 1 optsDefault 0) []
     "push" [Val.str "b"] [Val.str "b", Val.str "c"] 1 (by decide)⟩

/-- C5: the `value` getter throws `MutationLimitExceeded` exactly when
`strictMode` holds and a violation has occurred; in every other case it
returns the current stored value; it never modifies any state. -/
theorem C5_read_semantics (s : GuardState) :
    (getValue s).1 = s
  ∧ (getValue s).2 =
      (if s.opts.strictMode && s.violated then Except.error (readViolationError s)
       else Except.ok s.value)
  ∧ (exceptOk (getValue s).2 = false ↔ (s.opts.strictMode = true ∧ s.violated = true)) := by
  refine ⟨?_, ?_, ?_⟩ <;>
    simp only [getValue] <;> split_ifs <;> simp_all [exceptOk]

/-- C6: across every sequence of write attempts (shallow and deep, frozen
and limit-exceeded rejections alike), the `onViolation` callback fires at
most once while its one-shot flag allows it - hence at most once per
lifetime from a freshly constructed guard - and a successful `reset()`
clears the one-shot flag so it may fire once more afterwards. -/
theorem C6_onViolation_once :
    (∀ (s : GuardState) (atts : List Att),
       List.countP isOnViolationEv (runEvents s atts) ≤ ovAllowance s)
  ∧ (∀ (v : Val) (n : Nat) (o : Options) (t : Nat) (atts : List Att),
       List.countP isOnViolationEv (runEvents (construct v n o t) atts) ≤ 1)
  ∧ (∀ (s : GuardState) (now : Nat),
       (resetOp s now).1.onViolationCalled =
         (if s.opts.allowReset = true then false else s.onViolationCalled)) := by
  refine ⟨?_, ?_, ?_⟩
  · intro s atts
    have := ovRun s atts
    omega
  · intro v n o t atts
    have h1 := ovRun (construct v n o t) atts
    have h2 : ovAllowance (construct v n o t) = 1 := by
      simp [ovAllowance, construct]
    omega
  · intro s now
    simp only [resetOp]
    split_ifs <;> simp_all

/-- C7: `onLastMutation` fires at a write attempt exactly when that attempt
is admitted and brings `mutationCount` up to `maxMutations` (and the
callback is installed); consequently, over any run from a freshly
constructed guard without reset it fires exactly once when the limit is
reached (`maxMutations > 0` and the final count equals the limit) and zero
times otherwise - never twice, and never at any other moment. -/
theorem C7_onLastMutation_cardinality :
    (∀ (s : GuardState) (a : Att),
       List.countP isOnLastEv (stepA s a).2.2 =
         (if s.opts.hasOnLastMutation = true ∧ admits s = true ∧
             s.mutationCount + 1 = s.maxMutations
           then 1 else 0))
  ∧ (∀ (v : Val) (n : Nat) (o : Options) (t : Nat) (atts : List Att),
       List.countP isOnLastEv (runEvents (construct v n o t) atts) =
         (if (construct v n o t).opts.hasOnLastMutation = true ∧ 0 < n ∧
             (runState (construct v n o t) atts).mutationCount = n
           then 1 else 0)) := by
  refine ⟨stepA_lastEv, ?_⟩
  intro v n o t atts
  have h := lastRun (construct v n o t) atts (by simp [construct])
  simpa [construct] using h

/-- C1: a guard constructed with limit `n` admits exactly the first `n`
write attempts of any long-enough mixed sequence (top-level reassignments
and deep edits in any mix): each of the first `n` attempts succeeds and
advances `mutationCount` by one, no violation accrues during the prefix,
and the `(n+1)`-th attempt is the first to be rejected - it throws in
strict mode, and in non-strict mode it returns but is marked as the first
violation (`violationCount` becomes 1, `violated` becomes true, the count
stays at `n`). -/
theorem C1_exact_depletion (v : Val) (n : Nat) (o : Options) (t : Nat)
    (atts : List Att) (hlen : n < atts.length) :
    ((runResults (construct v n o t) (atts.take n)).all WriteResult.isOk = true)
  ∧ (∀ k, k ≤ n → (runState (construct v n o t) (atts.take k)).mutationCount = k)
  ∧ (runState (construct v n o t) (atts.take n)).violationCount = 0
  ∧ ((construct v n o t).opts.strictMode = true →
      (stepA (runState (construct v n o t) (atts.take n))
        (atts.getD n (Att.shallow Val.undef 0))).2.1.isOk = false)
  ∧ ((construct v n o t).opts.strictMode = false →
      ((stepA (runState (construct v n o t) (atts.take n))
          (atts.getD n (Att.shallow Val.undef 0))).2.1.isOk = true
     ∧ (stepA (runState (construct v n o t) (atts.take n))
          (atts.getD n (Att.shallow Val.undef 0))).1.violationCount = 1
     ∧ (stepA (runState (construct v n o t) (atts.take n))
          (atts.getD n (Att.shallow Val.undef 0))).1.violated = true
     ∧ (stepA (runState (construct v n o t) (atts.take n))
          (atts.getD n (Att.shallow Val.undef 0))).1.mutationCount = n)) := by
  have hle : n ≤ atts.length := Nat.le_of_lt hlen
  obtain ⟨hc, hv, hviol, hflag, hmax, hopts, hfr, hfrImp, hres⟩ :=
    freshPrefixInv v n o t atts hle n (Nat.le_refl n)
  have hadm : admits (runState (construct v n o t) (atts.take n)) = false := by
    simp [admits, hc, hmax]
  refine ⟨hres, ?_, hv, ?_, ?_⟩
  · intro k hk
    exact (freshPrefixInv v n o t atts hle k hk).1
  · intro hstrict
    have hs : (runState (construct v n o t) (atts.take n)).opts.strictMode = true := by
      rw [hopts]
      exact hstrict
    rw [stepA_isOk, hadm, hs]
    rfl
  · intro hstrict
    have hns : (runState (construct v n o t) (atts.take n)).opts.strictMode = false := by
      rw [hopts]
      exact hstrict
    have haf : (construct v n o t).opts.autoFreeze = false := constructCoupling v n o t hstrict
    have hfz : (runState (construct v n o t) (atts.take n)).frozen = false := by
      by_cases hb : (runState (construct v n o t) (atts.take n)).frozen = true
      · rw [(hfrImp hb).1] at haf
        cases haf
      · simpa using hb
    refine ⟨?_, ?_, ?_, ?_⟩
    · rw [stepA_isOk, hns]
      rfl
    · rw [stepA_vcount, hv, hfz, hmax, hc]
      simp
    · rw [stepA_violated, hviol, hadm]
      rfl
    · rw [stepA_count, hc, hadm]
      simp

/-- Witness for C1: limit 2, strict defaults, a three-attempt sequence
mixing a shallow write, a deep property edit, and a final shallow write. -/
theorem C1_witness :
    ((2 : Nat) < ([Att.shallow (Val.num 1) 1,
        Att.deep ["x"] (Val.num 2) (Val.num 1) MutType.property 2,
        Att.shallow (Val.num 3) 3] : List Att).length)
  ∧ (((runResults (construct (Val.num 0) 2 optsDefault 0)
        (([Att.shallow (Val.num 1) 1,
           Att.deep ["x"] (Val.num 2) (Val.num 1) MutType.property 2,
           Att.shallow (Val.num 3) 3] : List Att).take 2)).all WriteResult.isOk = true)
   ∧ (∀ k, k ≤ 2 →
       (runState (construct (Val.num 0) 2 optsDefault 0)
         (([Att.shallow (Val.num 1) 1,
            Att.deep ["x"] (Val.num 2) (Val.num 1) MutType.property 2,
            Att.shallow (Val.num 3) 3] : List Att).take k)).mutationCount = k)
   ∧ (runState (construct (Val.num 0) 2 optsDefault 0)
        (([Att.shallow (Val.num 1) 1,
           Att.deep ["x"] (Val.num 2) (Val.num 1) MutType.property 2,
           Att.shallow (Val.num 3) 3] : List Att).take 2)).violationCount = 0
   ∧ ((construct (Val.num 0) 2 optsDefault 0).opts.strictMode = true →
       (stepA (runState (construct (Val.num 0) 2 optsDefault 0)
           (([Att.shallow (Val.num 1) 1,
              Att.deep ["x"] (Val.num 2) (Val.num 1) MutType.property 2,
              Att.shallow (Val.num 3) 3] : List Att).take 2))
         (([Att.shallow (Val.num 1) 1,
            Att.deep ["x"] (Val.num 2) (Val.num 1) MutType.property 2,
            Att.shallow (Val.num 3) 3] : List Att).getD 2
           (Att.shallow Val.undef 0))).2.1.isOk = false)
   ∧ ((construct (Val.num 0) 2 optsDefault 0).opts.strictMode = false →
       ((stepA (runState (construct (Val.num 0) 2 optsDefault 0)
            (([Att.shallow (Val.num 1) 1,
               Att.deep ["x"] (Val.num 2) (Val.num 1) MutType.property 2,
               Att.shallow (Val.num 3) 3] : List Att).take 2))
          (([Att.shallow (Val.num 1) 1,
             Att.deep ["x"] (Val.num 2) (Val.num 1) MutType.property 2,
             Att.shallow (Val.num 3) 3] : List Att).getD 2
            (Att.shallow Val.undef 0))).2.1.isOk = true
      ∧ (stepA (runState (construct (Val.num 0) 2 optsDefault 0)
            (([Att.shallow (Val.num 1) 1,
               Att.deep ["x"] (Val.num 2) (Val.num 1) MutType.property 2,
               Att.shallow (Val.num 3) 3] : List Att).take 2))
          (([Att.shallow (Val.num 1) 1,
             Att.deep ["x"] (Val.num 2) (Val.num 1) MutType.property 2,
             Att.shallow (Val.num 3) 3] : List Att).getD 2
            (Att.shallow Val.undef 0))).1.violationCount = 1
      ∧ (stepA (runState (construct (Val.num 0) 2 optsDefault 0)
            (([Att.shallow (Val.num 1) 1,
               Att.deep ["x"] (Val.num 2) (Val.num 1) MutType.property 2,
               Att.shallow (Val.num 3) 3] : List Att).take 2))
          (([Att.shallow (Val.num 1) 1,
             Att.deep ["x"] (Val.num 2) (Val.num 1) MutType.property 2,
             Att.shallow (Val.num 3) 3] : List Att).getD 2
            (Att.shallow Val.undef 0))).1.violated = true
      ∧ (stepA (runState (construct (Val.num 0) 2 optsDefault 0)
            (([Att.shallow (Val.num 1) 1,
               Att.deep ["x"] (Val.num 2) (Val.num 1) MutType.property 2,
               Att.shallow (Val.num 3) 3] : List Att).take 2))
          (([Att.shallow (Val.num 1) 1,
             Att.deep ["x"] (Val.num 2) (Val.num 1) MutType.property 2,
             Att.shallow (Val.num 3) 3] : List Att).getD 2
            (Att.shallow Val.undef 0))).1.mutationCount = 2))) :=
  ⟨by decide,
   C1_exact_depletion (Val.num 0) 2 optsDefault 0
     [Att.shallow (Val.num 1) 1,
      Att.deep ["x"] (Val.num 2) (Val.num 1) MutType.property 2,
      Att.shallow (Val.num 3) 3] (by decide)⟩

/-- C2 counterexample: a guard in non-strict mode is manually frozen; a deep
property edit on its tracked object IS applied to the underlying container.
`#handleDeepMutation` returns normally (non-strict mode never throws), so
the `set` trap proceeds to `Reflect.set` and stores the new value - the
frozen write is not applied-free, contradicting the claim for deep edits in
non-strict mode. -/
theorem C2_counterexample :
    (freezeOp (construct (Val.obj [("x", Val.num 1)]) 1
       { optsDefault with strictMode := false } 0)).frozen = true
  ∧ (freezeOp (construct (Val.obj [("x", Val.num 1)]) 1
       { optsDefault with strictMode := false } 0)).opts.strictMode = false
  ∧ (proxySetField (freezeOp (construct (Val.obj [("x", Val.num 1)]) 1
       { optsDefault with strictMode := false } 0)) [] [("x", Val.num 1)] "x"
       (Val.num 2) 5).2.2.1.isOk = true
  ∧ (proxySetField (freezeOp (construct (Val.obj [("x", Val.num 1)]) 1
       { optsDefault with strictMode := false } 0)) [] [("x", Val.num 1)] "x"
       (Val.num 2) 5).2.1 = [("x", Val.num 2)] := by
  refine ⟨rfl, rfl, rfl, rfl⟩

/-- C2 (amended): once `frozen` is true, no subsequent write attempt is ever
admitted or counted; in strict mode every such attempt throws and the value
is not applied (the top-level value is unchanged, and all four deep traps -
property set, delete, index assignment, mutating array-method call - abort
before the underlying edit); a top-level reassignment in non-strict mode is
also not applied; but a deep structural edit of any of the four kinds in
non-strict mode, though recorded as a frozen violation, is still applied to
the underlying container by the proxy trap after the handler returns. -/
theorem C2_amended_freeze_blocks (s : GuardState) (h : s.frozen = true)
    (a : Att) (nv : Val) (path : List String) (obj : List (String × Val))
    (k : String) (arr args : List Val) (i : Nat) (now : Nat) :
    admits s = false
  ∧ (stepA s a).1.mutationCount = s.mutationCount
  ∧ (s.opts.strictMode = true → (stepA s a).2.1.isOk = false)
  ∧ (setValue s nv now).1.value = s.value
  ∧ (s.opts.strictMode = true →
      ((proxySetField s path obj k nv now).2.1 = obj ∧
       (proxyDeleteField s path obj k now).2.1 = obj ∧
       (proxySetIndex s path arr i nv now).2.1 = arr ∧
       (proxyPushCall s path arr args now).2.1 = arr))
  ∧ (s.opts.strictMode = false →
      ((proxySetField s path obj k nv now).2.1 = objSet obj k nv ∧
       (proxyDeleteField s path obj k now).2.1 = objDelete obj k ∧
       (proxySetIndex s path arr i nv now).2.1 = arr.set i nv ∧
       (proxyPushCall s path arr args now).2.1 = arr ++ args)) := by
  have hadm : admits s = false := by simp [admits, h]
  have hdeep : ∀ (p : List String) (v1 v2 : Val) (ty : MutType) (tm : Nat),
      (handleDeepMutation s p v1 v2 ty tm).2.1 =
        (if s.opts.strictMode = true then
          WriteResult.threw
            { message := s.opts.errorMessage.getD
                ("Variable is frozen. Deep mutation attempted at path: " ++ pathJoin p),
              context := { maxMutations := s.maxMutations, currentMutations := s.mutationCount,
                           attemptedValue := some v1, currentValue := some v2,
                           mutationPath := some (pathJoin p), mutationType := some ty,
                           frozen := some true } }
         else WriteResult.ok) := by
    intro p v1 v2 ty tm
    simp only [handleDeepMutation, h]
    split_ifs <;> simp_all
  refine ⟨hadm, ?_, ?_, ?_, ?_, ?_⟩
  · rw [stepA_count, hadm]
    simp
  · intro hs
    rw [stepA_isOk, hadm, hs]
    rfl
  · simp only [setValue, h]
    split_ifs <;> rfl
  · intro hs
    refine ⟨?_, ?_, ?_, ?_⟩
    · simp only [proxySetField, hdeep, hs, if_true]
    · simp only [proxyDeleteField, hdeep, hs, if_true]
    · simp only [proxySetIndex, hdeep, hs, if_true]
    · simp only [proxyPushCall, arrayMethodCall, hdeep, hs, if_true]
  · intro hs
    refine ⟨?_, ?_, ?_, ?_⟩
    · simp only [proxySetField, hdeep, hs]
      rfl
    · simp only [proxyDeleteField, hdeep, hs]
      rfl
    · simp only [proxySetIndex, hdeep, hs]
      rfl
    · simp only [proxyPushCall, arrayMethodCall, hdeep, hs]
      rfl

/-- Witness for C2 (amended): a strict-mode guard over an object, manually
frozen; the outcomes of all four deep traps and the shallow frame conditions
are checked on the concrete instance. -/
theorem C2_amended_witness :
    ((freezeOp (construct (Val.obj [("x", Val.num 1)]) 1 optsDefault 0)).frozen = true)
  ∧ (admits (freezeOp (construct (Val.obj [("x", Val.num 1)]) 1 optsDefault 0)) = false
  ∧ (stepA (freezeOp (construct (Val.obj [("x", Val.num 1)]) 1 optsDefault 0))
       (Att.shallow (Val.num 7) 4)).1.mutationCount =
      (freezeOp (construct (Val.obj [("x", Val.num 1)]) 1 optsDefault 0)).mutationCount
  ∧ ((freezeOp (construct (Val.obj [("x", Val.num 1)]) 1 optsDefault 0)).opts.strictMode = true →
      (stepA (freezeOp (construct (Val.obj [("x", Val.num 1)]) 1 optsDefault 0))
        (Att.shallow (Val.num 7) 4)).2.1.isOk = false)
  ∧ (setValue (freezeOp (construct (Val.obj [("x", Val.num 1)]) 1 optsDefault 0))
       (Val.num 7) 4).1.value =
      (freezeOp (construct (Val.obj [("x", Val.num 1)]) 1 optsDefault 0)).value
  ∧ ((freezeOp (construct (Val.obj [("x", Val.num 1)]) 1 optsDefault 0)).opts.strictMode = true →
      ((proxySetField (freezeOp (construct (Val.obj [("x", Val.num 1)]) 1 optsDefault 0))
          [] [("x", Val.num 1)] "x" (Val.num 7) 4).2.1 = [("x", Val.num 1)] ∧
       (proxyDeleteField (freezeOp (construct (Val.obj [("x", Val.num 1)]) 1 optsDefault 0))
          [] [("x", Val.num 1)] "x" 4).2.1 = [("x", Val.num 1)] ∧
       (proxySetIndex (freezeOp (construct (Val.obj [("x", Val.num 1)]) 1 optsDefault 0))
          [] [Val.str "a"] 0 (Val.num 7) 4).2.1 = [Val.str "a"] ∧
       (proxyPushCall (freezeOp (construct (Val.obj [("x", Val.num 1)]) 1 optsDefault 0))
          [] [Val.str "a"] [Val.str "b"] 4).2.1 = [Val.str "a"]))
  ∧ ((freezeOp (construct (Val.obj [("x", Val.num 1)]) 1 optsDefault 0)).opts.strictMode = false →
      ((proxySetField (freezeOp (construct (Val.obj [("x", Val.num 1)]) 1 optsDefault 0))
          [] [("x", Val.num 1)] "x" (Val.num 7) 4).2.1 =
            objSet [("x", Val.num 1)] "x" (Val.num 7) ∧
       (proxyDeleteField (freezeOp (construct (Val.obj [("x", Val.num 1)]) 1 optsDefault 0))
          [] [("x", Val.num 1)] "x" 4).2.1 = objDelete [("x", Val.num 1)] "x" ∧
       (proxySetIndex (freezeOp (construct (Val.obj [("x", Val.num 1)]) 1 optsDefault 0))
          [] [Val.str "a"] 0 (Val.num 7) 4).2.1 =
            ([Val.str "a"] : List Val).set 0 (Val.num 7) ∧
       (proxyPushCall (freezeOp (construct (Val.obj [("x", Val.num 1)]) 1 optsDefault 0))
          [] [Val.str "a"] [Val.str "b"] 4).2.1 =
            ([Val.str "a"] : List Val) ++ [Val.str "b"]))) :=
  ⟨rfl,
   C2_amended_freeze_blocks (freezeOp (construct (Val.obj [("x", Val.num 1)]) 1 optsDefault 0))
     rfl (Att.shallow (Val.num 7) 4) (Val.num 7) [] [("x", Val.num 1)] "x"
     [Val.str "a"] [Val.str "b"] 0 4⟩

/-- C9 counterexample: a frozen deep write also updates the internal
`#mutationPath` bookkeeping field (line 1331 runs before the frozen check),
so `violated` and the one-shot `onViolation` flag are not the only state
that can change on a frozen-write rejection. -/
theorem C9_counterexample :
    (freezeOp (construct (Val.obj [("x", Val.num 1)]) 1 optsDefault 0)).frozen = true
  ∧ (freezeOp (construct (Val.obj [("x", Val.num 1)]) 1 optsDefault 0)).mutationPath = []
  ∧ (handleDeepMutation (freezeOp (construct (Val.obj [("x", Val.num 1)]) 1 optsDefault 0))
      ["x"] (Val.num 2) (Val.num 1) MutType.property 5).1.mutationPath = ["x"] := by
  refine ⟨rfl, rfl, rfl⟩

/-- C9 (amended): a write attempted while frozen leaves `mutationCount`,
`violationCount`, the history log, the stored value, the limit, the options
and the frozen flag unchanged, and never invokes `onLimitExceeded`; the
only state that may change is the `violated` flag, the internal one-shot
`onViolation` flag, and - for deep writes - the internal `#mutationPath`
bookkeeping field (which is set to the attempted path). -/
theorem C9_amended_frozen_frame (s : GuardState) (a : Att) (h : s.frozen = true) :
    (stepA s a).1.mutationCount = s.mutationCount
  ∧ (stepA s a).1.violationCount = s.violationCount
  ∧ (stepA s a).1.history = s.history
  ∧ (stepA s a).1.value = s.value
  ∧ (stepA s a).1.maxMutations = s.maxMutations
  ∧ (stepA s a).1.opts = s.opts
  ∧ (stepA s a).1.frozen = true
  ∧ List.countP isOnLimitEv (stepA s a).2.2 = 0
  ∧ (stepA s a).1.mutationPath =
      (match a with
       | Att.shallow _ _ => s.mutationPath
       | Att.deep p _ _ _ _ => p) := by
  cases a <;> simp only [stepA, setValue, handleDeepMutation, h] <;>
    split_ifs <;> simp_all [isOnLimitEv]

/-- Witness for C9 (amended): the frame conditions evaluated on a concrete
frozen guard under a deep property edit. -/
theorem C9_amended_witness :
    ((freezeOp (construct (Val.num 0) 1 optsDefault 0)).frozen = true)
  ∧ ((stepA (freezeOp (construct (Val.num 0) 1 optsDefault 0))
       (Att.deep ["y"] (Val.num 2) (Val.num 1) MutType.property 7)).1.mutationCount =
      (freezeOp (construct (Val.num 0) 1 optsDefault 0)).mutationCount
  ∧ (stepA (freezeOp (construct (Val.num 0) 1 optsDefault 0))
       (Att.deep ["y"] (Val.num 2) (Val.num 1) MutType.property 7)).1.violationCount =
      (freezeOp (construct (Val.num 0) 1 optsDefault 0)).violationCount
  ∧ (stepA (freezeOp (construct (Val.num 0) 1 optsDefault 0))
       (Att.deep ["y"] (Val.num 2) (Val.num 1) MutType.property 7)).1.history =
      (freezeOp (construct (Val.num 0) 1 optsDefault 0)).history
  ∧ (stepA (freezeOp (construct (Val.num 0) 1 optsDefault 0))
       (Att.deep ["y"] (Val.num 2) (Val.num 1) MutType.property 7)).1.value =
      (freezeOp (construct (Val.num 0) 1 optsDefault 0)).value
  ∧ (stepA (freezeOp (construct (Val.num 0) 1 optsDefault 0))
       (Att.deep ["y"] (Val.num 2) (Val.num 1) MutType.property 7)).1.maxMutations =
      (freezeOp (construct (Val.num 0) 1 optsDefault 0)).maxMutations
  ∧ (stepA (freezeOp (construct (Val.num 0) 1 optsDefault 0))
       (Att.deep ["y"] (Val.num 2) (Val.num 1) MutType.property 7)).1.opts =
      (freezeOp (construct (Val.num 0) 1 optsDefault 0)).opts
  ∧ (stepA (freezeOp (construct (Val.num 0) 1 optsDefault 0))
       (Att.deep ["y"] (Val.num 2) (Val.num 1) MutType.property 7)).1.frozen = true
  ∧ List.countP isOnLimitEv (stepA (freezeOp (construct (Val.num 0) 1 optsDefault 0))
       (Att.deep ["y"] (Val.num 2) (Val.num 1) MutType.property 7)).2.2 = 0
  ∧ (stepA (freezeOp (construct (Val.num 0) 1 optsDefault 0))
       (Att.deep ["y"] (Val.num 2) (Val.num 1) MutType.property 7)).1.mutationPath =
      (match (Att.deep ["y"] (Val.num 2) (Val.num 1) MutType.property 7 : Att) with
       | Att.shallow _ _ => (freezeOp (construct (Val.num 0) 1 optsDefault 0)).mutationPath
       | Att.deep p _ _ _ _ => p)) :=
  ⟨rfl,
   C9_amended_frozen_frame (freezeOp (construct (Val.num 0) 1 optsDefault 0))
     (Att.deep ["y"] (Val.num 2) (Val.num 1) MutType.property 7) rfl⟩

theorem optsEta (o : Options) (h : o.autoFreeze = false) :
    ({ o with autoFreeze := false } : Options) = o := by
  cases o
  simp_all

/-- Stepping preserves core agreement: two states that agree on the
admission-relevant fields produce the same admission outcome and stay in
agreement (only the stored value, the history log and `#mutationPath` may
differ). -/
theorem coreStep (s t : GuardState) (a : Att) (h : coreEq s t) :
    (stepA s a).2.1.isOk = (stepA t a).2.1.isOk ∧ coreEq (stepA s a).1 (stepA t a).1 := by
  obtain ⟨h1, h2, h3, h4, h5, h6, h7⟩ := h
  have hadm : admits s = admits t := by simp [admits, h1, h2, h4]
  constructor
  · rw [stepA_isOk, stepA_isOk, hadm, h7]
  · refine ⟨?_, ?_, ?_, ?_, ?_, ?_, ?_⟩
    · rw [stepA_max, stepA_max, h1]
    · rw [stepA_count, stepA_count, h2, hadm]
    · rw [stepA_vcount, stepA_vcount, h3, h4, h1, h2]
    · rw [stepA_frozen, stepA_frozen, h4, hadm, h7, h2, h1]
    · rw [stepA_violated, stepA_violated, h5, hadm]
    · rw [stepA_ovFlag, stepA_ovFlag, h6, h7, h4, h1, h2]
    · rw [stepA_opts, stepA_opts, h7]

/-- Core agreement yields identical admission traces. -/
theorem coreTrace (s t : GuardState) (atts : List Att) (h : coreEq s t) :
    admissionTrace s atts = admissionTrace t atts := by
  induction atts generalizing s t with
  | nil => rfl
  | cons a rest ih =>
    obtain ⟨hok, hcore⟩ := coreStep s t a h
    have hobs : obsOf (stepA s a).1 = obsOf (stepA t a).1 := by
      obtain ⟨_, k2, k3, k4, k5, _, _⟩ := hcore
      simp [obsOf, k2, k3, k4, k5]
    simp only [admissionTrace, hok, hobs, ih _ _ hcore]

/-- C8 counterexample: with `allowReset` enabled but history tracking
disabled, `reset()` succeeds yet appends no reset record - the history
append in `reset` is guarded by `trackHistory`, so the claim's unconditional
"appends a reset history record" fails. -/
theorem C8_counterexample :
    (resetOp (construct (Val.num 0) 1
       { optsDefault with allowReset := true, trackHistory := false } 0) 5).2 = true
  ∧ (resetOp (construct (Val.num 0) 1
       { optsDefault with allowReset := true, trackHistory := false } 0) 5).1.history = [] := by
  refine ⟨rfl, rfl⟩

/-- C8 (amended): `reset()` throws a configuration error and changes no
state when `allowReset` is false; when `allowReset` is true it zeroes both
counters, clears `frozen`, `violated` and the one-shot `onViolation` flag,
leaves the stored value and the limit unchanged, appends a `reset` history
record when history tracking is enabled (and appends nothing otherwise),
and the subsequent admission behaviour - per-attempt outcomes, counts and
flags over any sequence of writes - is identical to that of a freshly
constructed instance over the same value, limit and options. -/
theorem C8_amended_reset (s : GuardState) (now : Nat)
    (hco : s.opts.strictMode = false → s.opts.autoFreeze = false) :
    (s.opts.allowReset = false → resetOp s now = (s, false))
  ∧ (s.opts.allowReset = true →
      ((resetOp s now).2 = true
     ∧ (resetOp s now).1.mutationCount = 0
     ∧ (resetOp s now).1.violationCount = 0
     ∧ (resetOp s now).1.frozen = false
     ∧ (resetOp s now).1.violated = false
     ∧ (resetOp s now).1.onViolationCalled = false
     ∧ (resetOp s now).1.value = s.value
     ∧ (resetOp s now).1.maxMutations = s.maxMutations
     ∧ (resetOp s now).1.history =
         (if s.opts.trackHistory = true then
            s.history ++ [{ value := s.value, timestamp := now, mutation := 0,
                            type := EntryType.reset }]
          else s.history)
     ∧ (∀ atts, admissionTrace (resetOp s now).1 atts =
          admissionTrace (construct s.value s.maxMutations s.opts now) atts))) := by
  constructor
  · intro hna
    simp [resetOp, hna]
  · intro ha
    have hfields :
        (resetOp s now).2 = true ∧
        (resetOp s now).1.mutationCount = 0 ∧
        (resetOp s now).1.violationCount = 0 ∧
        (resetOp s now).1.frozen = false ∧
        (resetOp s now).1.violated = false ∧
        (resetOp s now).1.onViolationCalled = false ∧
        (resetOp s now).1.value = s.value ∧
        (resetOp s now).1.maxMutations = s.maxMutations ∧
        (resetOp s now).1.opts = s.opts ∧
        (resetOp s now).1.history =
          (if s.opts.trackHistory = true then
             s.history ++ [{ value := s.value, timestamp := now, mutation := 0,
                             type := EntryType.reset }]
           else s.history) := by
      simp only [resetOp, ha, Bool.not_true, Bool.false_eq_true, if_false]
      split_ifs <;> simp_all
    obtain ⟨f1, f2, f3, f4, f5, f6, f7, f8, f9, f10⟩ := hfields
    have hcopts : (construct s.value s.maxMutations s.opts now).opts = s.opts := by
      by_cases hs : s.opts.strictMode = true
      · simp [construct, hs]
      · simp only [Bool.not_eq_true] at hs
        have haf := hco hs
        show (if s.opts.strictMode = true then s.opts
              else { s.opts with autoFreeze := false }) = s.opts
        rw [if_neg (by simp [hs])]
        exact optsEta s.opts haf
    have hcore : coreEq (resetOp s now).1 (construct s.value s.maxMutations s.opts now) := by
      refine ⟨?_, ?_, ?_, ?_, ?_, ?_, ?_⟩
      · rw [f8]
        rfl
      · rw [f2]
        rfl
      · rw [f3]
        rfl
      · rw [f4]
        rfl
      · rw [f5]
        rfl
      · rw [f6]
        rfl
      · rw [f9, hcopts]
    exact ⟨f1, f2, f3, f4, f5, f6, f7, f8, f10,
      fun atts => coreTrace _ _ atts hcore⟩

/-- Witness for C8 (amended): a concrete guard with `allowReset` enabled
(strict defaults), checked after one admitted write. -/
theorem C8_amended_witness :
    ((runState (construct (Val.num 0) 2 { optsDefault with allowReset := true } 0)
        [Att.shallow (Val.num 1) 1]).opts.strictMode = false →
      (runState (construct (Val.num 0) 2 { optsDefault with allowReset := true } 0)
        [Att.shallow (Val.num 1) 1]).opts.autoFreeze = false)
  ∧ (((runState (construct (Val.num 0) 2 { optsDefault with allowReset := true } 0)
        [Att.shallow (Val.num 1) 1]).opts.allowReset = false →
      resetOp (runState (construct (Val.num 0) 2 { optsDefault with allowReset := true } 0)
        [Att.shallow (Val.num 1) 1]) 9 =
        (runState (construct (Val.num 0) 2 { optsDefault with allowReset := true } 0)
          [Att.shallow (Val.num 1) 1], false))
  ∧ ((runState (construct (Val.num 0) 2 { optsDefault with allowReset := true } 0)
        [Att.shallow (Val.num 1) 1]).opts.allowReset = true →
      ((resetOp (runState (construct (Val.num 0) 2 { optsDefault with allowReset := true } 0)
          [Att.shallow (Val.num 1) 1]) 9).2 = true
     ∧ (resetOp (runState (construct (Val.num 0) 2 { optsDefault with allowReset := true } 0)
          [Att.shallow (Val.num 1) 1]) 9).1.mutationCount = 0
     ∧ (resetOp (runState (construct (Val.num 0) 2 { optsDefault with allowReset := true } 0)
          [Att.shallow (Val.num 1) 1]) 9).1.violationCount = 0
     ∧ (resetOp (runState (construct (Val.num 0) 2 { optsDefault with allowReset := true } 0)
          [Att.shallow (Val.num 1) 1]) 9).1.frozen = false
     ∧ (resetOp (runState (construct (Val.num 0) 2 { optsDefault with allowReset := true } 0)
          [Att.shallow (Val.num 1) 1]) 9).1.violated = false
     ∧ (resetOp (runState (construct (Val.num 0) 2 { optsDefault with allowReset := true } 0)
          [Att.shallow (Val.num 1) 1]) 9).1.onViolationCalled = false
     ∧ (resetOp (runState (construct (Val.num 0) 2 { optsDefault with allowReset := true } 0)
          [Att.shallow (Val.num 1) 1]) 9).1.value =
        (runState (construct (Val.num 0) 2 { optsDefault with allowReset := true } 0)
          [Att.shallow (Val.num 1) 1]).value
     ∧ (resetOp (runState (construct (Val.num 0) 2 { optsDefault with allowReset := true } 0)
          [Att.shallow (Val.num 1) 1]) 9).1.maxMutations =
        (runState (construct (Val.num 0) 2 { optsDefault with allowReset := true } 0)
          [Att.shallow (Val.num 1) 1]).maxMutations
     ∧ (resetOp (runState (construct (Val.num 0) 2 { optsDefault with allowReset := true } 0)
          [Att.shallow (Val.num 1) 1]) 9).1.history =
         (if (runState (construct (Val.num 0) 2 { optsDefault with allowReset := true } 0)
               [Att.shallow (Val.num 1) 1]).opts.trackHistory = true then
            (runState (construct (Val.num 0) 2 { optsDefault with allowReset := true } 0)
               [Att.shallow (Val.num 1) 1]).history ++
              [{ value := (runState (construct (Val.num 0) 2
                    { optsDefault with allowReset := true } 0)
                    [Att.shallow (Val.num 1) 1]).value,
                 timestamp := 9, mutation := 0, type := EntryType.reset }]
          else (runState (construct (Val.num 0) 2 { optsDefault with allowReset := true } 0)
                 [Att.shallow (Val.num 1) 1]).history)
     ∧ (∀ atts, admissionTrace
          (resetOp (runState (construct (Val.num 0) 2 { optsDefault with allowReset := true } 0)
            [Att.shallow (Val.num 1) 1]) 9).1 atts =
          admissionTrace (construct
            (runState (construct (Val.num 0) 2 { optsDefault with allowReset := true } 0)
              [Att.shallow (Val.num 1) 1]).value
            (runState (construct (Val.num 0) 2 { optsDefault with allowReset := true } 0)
              [Att.shallow (Val.num 1) 1]).maxMutations
            (runState (construct (Val.num 0) 2 { optsDefault with allowReset := true } 0)
              [Att.shallow (Val.num 1) 1]).opts 9) atts)))) :=
  ⟨by decide,
   C8_amended_reset (runState (construct (Val.num 0) 2
     { optsDefault with allowReset := true } 0) [Att.shallow (Val.num 1) 1]) 9 (by decide)⟩

/-- C10: reading the history accessor allocates a fresh copy of the internal
log; overwriting the returned array (with any contents `xs`) leaves the
guard's internal log cell untouched, so `toJSON` snapshots and subsequent
history reads still see the original log. -/
theorem C10_history_copy (m : HeapModel) (xs : List HistoryEntry)
    (h : m.guardHist < m.store.length) :
    (historyRead m).2 ≠ m.guardHist
  ∧ histGetCell (histSetCell (historyRead m).1.store (historyRead m).2 xs) m.guardHist =
      histGetCell m.store m.guardHist
  ∧ toJSONHistory { store := histSetCell (historyRead m).1.store (historyRead m).2 xs,
                    guardHist := m.guardHist } = toJSONHistory m
  ∧ histGetCell
      (historyRead { store := histSetCell (historyRead m).1.store (historyRead m).2 xs,
                     guardHist := m.guardHist }).1.store
      (historyRead { store := histSetCell (historyRead m).1.store (historyRead m).2 xs,
                     guardHist := m.guardHist }).2 =
      histGetCell m.store m.guardHist := by
  have hne : m.store.length ≠ m.guardHist := by omega
  have hcell : histGetCell (histSetCell ((historyRead m).1).store (historyRead m).2 xs)
      m.guardHist = histGetCell m.store m.guardHist := by
    simp only [historyRead, histSetCell, histGetCell, List.get?_eq_getElem?]
    rw [List.getElem?_set_ne hne, List.getElem?_append_left h]
  refine ⟨hne, hcell, hcell, ?_⟩
  simp only [historyRead]
  have hlast : ∀ (l : List (List HistoryEntry)) (c : List HistoryEntry),
      histGetCell (l ++ [c]) l.length = c := by
    intro l c
    simp [histGetCell, List.get?_eq_getElem?, List.getElem?_concat_length]
  rw [hlast]
  exact hcell

/-- Witness for C10: a one-cell store holding one `initial` record; the
returned copy is overwritten with the empty list and the internal log is
unaffected. -/
theorem C10_witness :
    ((0 : Nat) < heap0.store.length)
  ∧ ((historyRead heap0).2 ≠ heap0.guardHist
  ∧ histGetCell (histSetCell (historyRead heap0).1.store (historyRead heap0).2 [])
      heap0.guardHist = histGetCell heap0.store heap0.guardHist
  ∧ toJSONHistory { store := histSetCell (historyRead heap0).1.store (historyRead heap0).2 [],
                    guardHist := heap0.guardHist } = toJSONHistory heap0
  ∧ histGetCell
      (historyRead { store := histSetCell (historyRead heap0).1.store (historyRead heap0).2 [],
                     guardHist := heap0.guardHist }).1.store
      (historyRead { store := histSetCell (historyRead heap0).1.store (historyRead heap0).2 [],
                     guardHist := heap0.guardHist }).2 =
      histGetCell heap0.store heap0.guardHist) :=
  ⟨by decide, C10_history_copy heap0 [] (by decide)⟩

end LimitedLet
